import Mathlib

set_option maxHeartbeats 1000000

namespace CvLoad

/-! Shallow embedding of src/src/simulator/src/data/load.ts: the project,
scope and element deserialization engine. Functions imported by load.ts from
other files of the repository (node.ts, utils.ts, testbench.ts, metadata.ts,
the modules table) are not part of the source slice; they are modelled from
the specification and marked as such in their doc comments. -/

/-- JSON-like payload values carried by serialized descriptors. -/
inductive JsValue where
  | num (n : Int)
  | str (s : String)
  | flag (b : Bool)
  | null
  deriving DecidableEq, Repr

/-- Live connection point of a scope. The field type mirrors node.type from
the source (value 2 denotes an internal node) and parentObjectType mirrors
node.parent.objectType, the type tag of the owning element. -/
structure Node where
  type : Nat
  parentObjectType : String
  x : Int
  y : Int
  label : Option String
  connections : List Nat
  deriving DecidableEq, Repr

/-- Serialized node descriptor: kind, owning element type tag, position,
optional label and an adjacency list of node indices. -/
structure NodeData where
  type : Nat
  parentObjectType : String
  x : Int
  y : Int
  label : Option String
  connections : List Nat
  deriving DecidableEq, Repr

/-- Value of one entry of the node-override map of an element descriptor:
either a single node index or a sequence of node indices. -/
inductive NodeOverride where
  | one (idx : Nat)
  | seq (idxs : List Nat)
  deriving DecidableEq, Repr

/-- Node-valued property slot of a live element: either a single node or an
array of nodes, mirroring the dynamic obj[node] slots used by loadModule. -/
inductive NodeProp where
  | one (n : Node)
  | seq (ns : List Node)
  deriving DecidableEq, Repr

/-- Custom payload of an element descriptor. -/
structure CustomData where
  constructorParamaters : Option (List JsValue)
  values : Option (List (String × JsValue))
  nodes : Option (List (String × NodeOverride))
  deriving DecidableEq, Repr

/-- Serialized element descriptor. -/
structure ElementData where
  objectType : String
  x : Int
  y : Int
  label : Option String
  labelDirection : Option String
  propagationDelay : Option Nat
  customData : Option CustomData
  subcircuitMetadata : Option JsValue
  deriving DecidableEq, Repr

/-- Live circuit element. Custom element state sits in the values association
list; node-valued slots sit in nodeProps. -/
structure Element where
  objectType : String
  x : Int
  y : Int
  direction : String
  label : Option String
  labelDirection : Option String
  propagationDelay : Nat
  values : List (String × JsValue)
  nodeProps : List (String × NodeProp)
  subcircuitMetadata : Option JsValue
  deriving DecidableEq, Repr

/-- Constructor of a registered element type: builds a fresh element from the
position and the ordered constructor parameters of the descriptor. -/
def ModuleCtor : Type := Int → Int → List JsValue → Element

/-- External collaborators used by load.ts: the modules constructor table,
the ambient fixDirection table, the oppositeDirection table from canvasApi
and the ordered moduleList from metadata. -/
structure Env where
  modules : String → Option ModuleCtor
  fixDirection : String → String
  oppositeDirection : String → String
  moduleList : List String

/-- Mirrors rectifyObjectType in load.ts: the legacy tags FlipFlop and Ram
map to DflipFlop and Rom, and every other tag is returned unchanged. -/
def rectifyObjectType (obj : String) : String :=
  if obj = "FlipFlop" then "DflipFlop"
  else if obj = "Ram" then "Rom"
  else obj

/-- Modelled from the spec: replace from node.ts is not part of this source
slice. Per the spec, replace discards the freshly constructed placeholder
node, transfers its would-be connections onto the pre-loaded node at the
given index of the scope node set, and returns that pre-loaded node so the
element property references it. An out-of-range index is the
MalformedDescriptor case; it leaves the placeholder in place here. -/
def replace (allNodes : List Node) (placeholder : Node) (index : Nat) : Node :=
  match allNodes[index]? with
  | some target => { target with connections := target.connections ++ placeholder.connections }
  | none => placeholder

/-- Mirrors the array branch of the node-override loop of loadModule: the
position i of the property array is rewired with the i-th override index;
positions past the end of the override sequence keep their freshly
constructed nodes. -/
def rewireMany (allNodes : List Node) : List Node → List Nat → List Node
  | pls, [] => pls
  | [], _ => []
  | pl :: pls, idx :: idxs => replace allNodes pl idx :: rewireMany allNodes pls idxs

/-- Mirrors one iteration of the node-override loop on lines 162 to 171 of
load.ts, dispatching on whether the override value is an array. Shape
mismatches between the override and the property are the MalformedDescriptor
case and leave the property unchanged here. -/
def applyOverride (allNodes : List Node) (prop : NodeProp) : NodeOverride → NodeProp
  | .one idx =>
    match prop with
    | .one pl => .one (replace allNodes pl idx)
    | .seq ns => .seq ns
  | .seq idxs =>
    match prop with
    | .one pl => .one pl
    | .seq pls => .seq (rewireMany allNodes pls idxs)

/-- Association-list lookup for the dynamic string-keyed slots of elements
and descriptors. -/
def alookup {α : Type} (k : String) : List (String × α) → Option α
  | [] => none
  | (k₂, v) :: ps => if k₂ = k then some v else alookup k ps

/-- Assignment obj[node] = ... of the rewired property at one key. -/
def updateProp (allNodes : List Node) (ps : List (String × NodeProp)) (k : String)
    (ov : NodeOverride) : List (String × NodeProp) :=
  ps.map fun p => if p.1 = k then (p.1, applyOverride allNodes p.2 ov) else p

/-- Mirrors the full node-override loop of loadModule over all entries of the
node-override map, in map order. -/
def applyNodeOverrides (allNodes : List Node) (ps : List (String × NodeProp))
    (ovs : List (String × NodeOverride)) : List (String × NodeProp) :=
  ovs.foldl (fun acc ov => updateProp allNodes acc ov.1 ov.2) ps

/-- Assignment obj[prop] = v of one custom value. -/
def upsert (ps : List (String × JsValue)) (k : String) (v : JsValue) :
    List (String × JsValue) :=
  if (ps.map Prod.fst).contains k then
    ps.map fun p => if p.1 = k then (p.1, v) else p
  else
    ps ++ [(k, v)]

/-- Mirrors the custom-values restoration loop on lines 154 to 158. -/
def applyValues (e : Element) (vs : List (String × JsValue)) : Element :=
  { e with values := vs.foldl (fun acc v => upsert acc v.1 v.2) e.values }

/-- JavaScript a || b for an optional number: a present nonzero value wins;
zero and absent both fall through to the default. -/
def jsOrNum (v : Option Nat) (dflt : Nat) : Nat :=
  match v with
  | some n => if n = 0 then dflt else n
  | none => dflt

/-- JavaScript a || b for an optional string: a present nonempty value wins;
the empty string and absent both fall through to the default. -/
def jsOrStr (v : Option String) (dflt : String) : String :=
  match v with
  | some s => if s = "" then dflt else s
  | none => dflt

/-- Freshly constructed element of line 137: the resolved constructor applied
to the descriptor position and the ordered constructor parameters (defaulting
to the empty sequence). -/
def defaultElement (ctor : ModuleCtor) (data : ElementData) : Element :=
  ctor data.x data.y ((data.customData.bind (·.constructorParamaters)).getD [])

/-- Property-restoration body of loadModule (lines 137 to 176), run after the
constructor has been resolved. -/
def buildElement (env : Env) (ctor : ModuleCtor) (data : ElementData)
    (allNodes : List Node) : Element :=
  let obj := defaultElement ctor data
  let obj := { obj with label := data.label }
  let ldir := jsOrStr data.labelDirection (env.oppositeDirection (env.fixDirection obj.direction))
  let obj := { obj with labelDirection := some ldir }
  let obj := { obj with propagationDelay := jsOrNum data.propagationDelay obj.propagationDelay }
  let obj := applyValues obj ((data.customData.bind (·.values)).getD [])
  let nps := applyNodeOverrides allNodes obj.nodeProps ((data.customData.bind (·.nodes)).getD [])
  let obj := { obj with nodeProps := nps }
  let obj := match data.subcircuitMetadata with
    | some m => { obj with subcircuitMetadata := some m }
    | none => obj
  obj

/-- Mirrors loadModule on lines 129 to 177 of load.ts. The result is the
constructed element, or the logged diagnostic when the rectified type tag has
no registered constructor. The direction-fixup call obj.fixDirection() of the
source normalizes internal node placement, which is not represented in this
model, so it is the identity here. Registration of the element with the scope
happens in the element constructors outside this function in the source as
well; the caller loadModuleInto records the element on the scope. -/
def loadModule (env : Env) (data : ElementData) (allNodes : List Node) :
    Except String Element :=
  match env.modules (rectifyObjectType data.objectType) with
  | none => .error ("Module type " ++ data.objectType ++ " not found")
  | some ctor => .ok (buildElement env ctor data allNodes)

/-- Geometric placement of one boundary port in a synthesized layout. -/
structure LayoutProps where
  x : Int
  y : Int
  id : Nat
  deriving DecidableEq, Repr

/-- Scope layout record. The titleEnabled flag is optional so the
backward-compatibility default on lines 298 to 300 can be modelled. -/
structure Layout where
  width : Int
  height : Int
  title_x : Int
  title_y : Int
  titleEnabled : Option Bool
  deriving DecidableEq, Repr

/-- Boundary port entry of scope.Input or scope.Output; only the
layoutProperties slot written by the layout resolver is represented. -/
structure Port where
  layoutProperties : Option LayoutProps
  deriving DecidableEq, Repr

/-- Verilog metadata of a scope descriptor. -/
structure VerilogMetadata where
  isVerilogCircuit : Bool
  isMainCircuit : Bool
  deriving DecidableEq, Repr

/-- Modelled from the spec: the TestbenchData class of testbench.ts is not in
this source slice; per the spec it packages the test-data blob and the
current group and case references. -/
structure TestbenchData where
  testData : JsValue
  currentGroup : JsValue
  currentCase : JsValue
  deriving DecidableEq, Repr

/-- Serialized testbench blob of a scope descriptor. -/
structure TestbenchBlob where
  testData : JsValue
  currentGroup : JsValue
  currentCase : JsValue
  deriving DecidableEq, Repr

/-- Opaque wire record; the updateData recomputation of derived wire data is
outside this source slice and touches no state represented here. -/
structure Wire where
  raw : Nat
  deriving DecidableEq, Repr

/-- Serialized scope descriptor. The per-type element descriptor arrays of
the JSON object are modelled as an association list from type tag to
descriptor array. -/
structure ScopeData where
  name : Option String
  id : String
  restrictedCircuitElementsUsed : List String
  allNodes : List NodeData
  moduleData : List (String × List ElementData)
  verilogMetadata : Option VerilogMetadata
  testbenchData : Option TestbenchBlob
  layout : Option Layout
  deriving DecidableEq, Repr

/-- Live reconstructed scope. -/
structure Scope where
  restrictedCircuitElementsUsed : List String
  allNodes : List Node
  elements : List Element
  subcircuits : List ElementData
  Input : List Port
  Output : List Port
  wires : List Wire
  verilogMetadata : Option VerilogMetadata
  testbenchData : Option TestbenchData
  layout : Option Layout
  deriving DecidableEq, Repr

/-- Global mutable state of the loader: the currently focussed scope
reference and the id counter modelling generateId from utils. -/
structure LoadState where
  globalScope : Option Scope
  nextId : Nat
  deriving DecidableEq, Repr

/-- Records the outcome of loadModule on the scope. In the source the element
constructor registers the element with the scope, and boundary elements also
register with scope.Input and scope.Output (modelled from the spec, since the
element constructors are outside this source slice). An unresolved type tag
leaves the scope untouched. -/
def loadModuleInto (env : Env) (data : ElementData) (s : Scope) : Scope :=
  match loadModule env data s.allNodes with
  | .error _ => s
  | .ok e =>
    let s₂ := { s with elements := s.elements ++ [e] }
    if e.objectType = "Input" then
      { s₂ with Input := s₂.Input ++ [{ layoutProperties := none }] }
    else if e.objectType = "Output" then
      { s₂ with Output := s₂.Output ++ [{ layoutProperties := none }] }
    else s₂

/-- Folds loadModuleInto over a descriptor array in array order, mirroring
the inner loop on lines 229 to 231. -/
def loadModuleList (env : Env) (ds : List ElementData) (s : Scope) : Scope :=
  ds.foldl (fun acc d => loadModuleInto env d acc) s

/-- Mirrors the module-loading loop on lines 220 to 234: iterate the global
module list in its fixed order and, for each type tag with descriptor
entries, load each entry in array order, dispatching SubCircuit entries to
the subcircuit loader. Subcircuit loading itself is outside this source
slice; the descriptor is recorded on the scope (modelled from the spec). -/
def loadScopeModules (env : Env) (data : ScopeData) (s : Scope) : Scope :=
  env.moduleList.foldl
    (fun acc tag =>
      match alookup tag data.moduleData with
      | none => acc
      | some ds =>
        if tag = "SubCircuit" then
          ds.foldl (fun a d => { a with subcircuits := a.subcircuits ++ [d] }) acc
        else
          loadModuleList env ds acc)
    s

/-- Modelled from the spec: loadNode from node.ts allocates a node with the
descriptor kind and position and appends it to the scope node set in input
order, without yet establishing any connections. -/
def loadNode (d : NodeData) : Node :=
  { type := d.type, parentObjectType := d.parentObjectType, x := d.x, y := d.y
  , label := d.label, connections := [] }

/-- Modelled from the spec: constructNodeConnections from node.ts wires the
live node to the live nodes at the indices of the descriptor adjacency
list. -/
def constructNodeConnections (n : Node) (d : NodeData) : Node :=
  { n with connections := d.connections }

/-- Mirrors the connection loop on lines 215 to 217: the i-th live node is
connected according to the i-th node descriptor. -/
def connectAll (nodes : List Node) (datas : List NodeData) : List Node :=
  List.zipWith constructNodeConnections nodes datas ++ nodes.drop datas.length

/-- Mirrors the bug-node test on lines 188 to 191: the node kind is not
internal (type different from 2) and the declared parent element type is the
generic CircuitElement default. -/
def isBugNode (n : Node) : Bool :=
  n.type != 2 && n.parentObjectType == "CircuitElement"

/-- Mirrors the scan loop of removeBugNodes. Deleting a node (modelled from
the spec: node.delete removes the node from the scope node set, so each
deletion strictly shrinks it) changes the length, upon which the source sets
i to 0 and the for-loop increment then moves i to 1, so the scan resumes at
index 1 of the shrunken list. -/
def removeBugLoop (nodes : List Node) (i : Nat) : List Node :=
  if h : i < nodes.length then
    if isBugNode nodes[i] then
      removeBugLoop (nodes.eraseIdx i) 1
    else
      removeBugLoop nodes (i + 1)
  else
    nodes
termination_by (nodes.length, nodes.length - i)
decreasing_by
  · apply Prod.Lex.left
    simp [List.length_eraseIdx, h]
    omega
  · apply Prod.Lex.right
    omega

/-- Mirrors removeBugNodes on lines 184 to 199 of load.ts. -/
def removeBugNodes (nodes : List Node) : List Node :=
  removeBugLoop nodes 0

/-- Fuel-indexed variant of the removeBugNodes scan, used to state that the
source loop terminates within an explicit bound on the number of loop
iterations. -/
def removeBugLoopFuel : Nat → List Node → Nat → Option (List Node)
  | 0, _, _ => none
  | fuel + 1, nodes, i =>
    if h : i < nodes.length then
      if isBugNode nodes[i] then
        removeBugLoopFuel fuel (nodes.eraseIdx i) 1
      else
        removeBugLoopFuel fuel nodes (i + 1)
    else
      some nodes

/-- Variant of the scan following the words of the specification: after a
deletion the scan restarts from the very beginning (index 0) of the shrunken
node set. Declared only to compare the stated restart behavior against the
source behavior. -/
def removeBugLoopRestart (nodes : List Node) (i : Nat) : List Node :=
  if h : i < nodes.length then
    if isBugNode nodes[i] then
      removeBugLoopRestart (nodes.eraseIdx i) 0
    else
      removeBugLoopRestart nodes (i + 1)
  else
    nodes
termination_by (nodes.length, nodes.length - i)
decreasing_by
  · apply Prod.Lex.left
    simp [List.length_eraseIdx, h]
    omega
  · apply Prod.Lex.right
    omega

/-- Restart-from-the-beginning pass over the whole node set, following the
words of the specification. -/
def removeBugNodesRestart (nodes : List Node) : List Node :=
  removeBugLoopRestart nodes 0

/-- Writes layoutProperties of consecutive boundary ports, mirroring the two
port loops of the synthesized-layout branch; mk receives the 0-based port
index. -/
def assignPortProps (mk : Nat → LayoutProps) : Nat → List Port → List Port
  | _, [] => []
  | i, p :: ps => { p with layoutProperties := some (mk i) } :: assignPortProps mk (i + 1) ps

/-- Mirrors the layout-resolution block on lines 256 to 295: a persisted
layout is adopted verbatim; otherwise a deterministic layout is synthesized
from the boundary port counts and every port receives a freshly generated id.
The external generateId from utils is modelled as a counter, so fresh ids are
consecutive values starting at nextId, inputs first. The x coordinate 100 of
the output ports is scope.layout.width, which the source assigns just
before. -/
def applyLayout (persisted : Option Layout) (s : Scope) (nextId : Nat) : Scope × Nat :=
  match persisted with
  | some l => ({ s with layout := some l }, nextId)
  | none =>
    let inC := s.Input.length
    let outC := s.Output.length
    let height : Int := (Nat.max inC outC : Int) * 20 + 20
    let inputs := assignPortProps
      (fun i => { x := 0, y := height / 2 - (inC : Int) * 10 + 20 * (i : Int) + 10, id := nextId + i })
      0 s.Input
    let outputs := assignPortProps
      (fun i => { x := 100, y := height / 2 - (outC : Int) * 10 + 20 * (i : Int) + 10, id := nextId + inC + i })
      0 s.Output
    ({ s with
        layout := some { width := 100, height := height, title_x := 50, title_y := 13, titleEnabled := none }
      , Input := inputs
      , Output := outputs }, nextId + inC + outC)

/-- Mirrors the backward-compatibility default on lines 298 to 300: an absent
titleEnabled flag becomes true. -/
def ensureTitleEnabled (s : Scope) : Scope :=
  match s.layout with
  | some l =>
    match l.titleEnabled with
    | none => { s with layout := some { l with titleEnabled := some true } }
    | some _ => s
  | none => s

/-- Mirrors loadScope on lines 207 to 301: restricted list copy, two-pass
node loading and connection building, module loading, wire update (the
updateData call recomputes only derived wire data outside this model, so it
is the identity here), bug-node removal, verilog metadata, testbench
restoration onto the globally focussed scope, and layout resolution. -/
def loadScope (env : Env) (st : LoadState) (scope : Scope) (data : ScopeData) :
    Scope × LoadState :=
  let s := { scope with restrictedCircuitElementsUsed := data.restrictedCircuitElementsUsed }
  let s := { s with allNodes := s.allNodes ++ data.allNodes.map loadNode }
  let s := { s with allNodes := connectAll s.allNodes data.allNodes }
  let s := loadScopeModules env data s
  let s := { s with allNodes := removeBugNodes s.allNodes }
  let s := match data.verilogMetadata with
    | some vm => { s with verilogMetadata := some vm }
    | none => s
  let st₂ := match data.testbenchData, st.globalScope with
    | some tb, some g =>
      let tbd : TestbenchData := { testData := tb.testData, currentGroup := tb.currentGroup, currentCase := tb.currentCase }
      { st with globalScope := some { g with testbenchData := some tbd } }
    | _, _ => st
  let r := applyLayout data.layout s st₂.nextId
  let s := ensureTitleEnabled r.1
  (s, { st₂ with nextId := r.2 })

/-- Entry of the circuit list of the simulator store: the scope id and a
payload distinguishing entries. -/
structure Circuit where
  id : String
  cname : String
  deriving DecidableEq, Repr

/-- JavaScript Array.prototype.indexOf over an array of strings: the first
index holding the value, or -1 when the value is absent. -/
def jsIndexOf (l : List String) (s : String) : Int :=
  match l.findIdx? (fun t => t == s) with
  | some i => (i : Int)
  | none => -1

/-- Sort key of the tab-reordering comparator on line 377: the position of
the circuit id in the persisted tab order, -1 for ids absent from it. -/
def tabKey (tabs : List String) (c : Circuit) : Int :=
  jsIndexOf tabs c.id

/-- Mirrors the tab reordering on lines 376 to 378: a stable ascending sort
of the circuit list by tabKey, modelling the stable Array.prototype.sort with
the comparator returning the difference of indexOf positions. -/
def reorderTabs (tabs : List String) (cs : List Circuit) : List Circuit :=
  cs.mergeSort (fun a b => tabKey tabs a ≤ tabKey tabs b)

/-- Mirrors the guard if data.orderedTabs on line 375: without a persisted
tab order the circuit list is left alone. -/
def applyOrderedTabs (orderedTabs : Option (List String)) (cs : List Circuit) :
    List Circuit :=
  match orderedTabs with
  | some tabs => reorderTabs tabs cs
  | none => cs

end CvLoad

namespace CvLoad

/-! Concrete fixtures used by counterexamples and witnesses. -/

/-- Concrete node satisfying both deletion conditions of removeBugNodes. -/
def bugNodeA : Node :=
  { type := 0, parentObjectType := "CircuitElement", x := 0, y := 0
  , label := none, connections := [] }

/-- Second concrete node satisfying both deletion conditions. -/
def bugNodeB : Node :=
  { type := 1, parentObjectType := "CircuitElement", x := 0, y := 10
  , label := none, connections := [] }

/-- Concrete node satisfying neither deletion condition. -/
def goodNode : Node :=
  { type := 2, parentObjectType := "AndGate", x := 5, y := 5
  , label := none, connections := [0] }

/-- Helper: the fuel-indexed scan agrees with the source scan once the fuel
exceeds the lexicographic measure of the loop. -/
theorem removeBugLoopFuel_adequate (fuel : Nat) : ∀ (nodes : List Node) (i : Nat),
    nodes.length * nodes.length + (nodes.length - i) < fuel →
    removeBugLoopFuel fuel nodes i = some (removeBugLoop nodes i) := by
  induction fuel with
  | zero => intro nodes i h; omega
  | succ f ih =>
    intro nodes i h
    rw [removeBugLoopFuel, removeBugLoop]
    split
    next hi =>
      split
      next hb =>
        apply ih
        obtain ⟨m, hm⟩ : ∃ m, nodes.length = m + 1 := ⟨nodes.length - 1, by omega⟩
        have hl : (nodes.eraseIdx i).length = m := by
          simp [List.length_eraseIdx, hi]
          omega
        rw [hl]
        have h2 : (m + 1) * (m + 1) = m * m + 2 * m + 1 := by ring
        rw [hm, h2] at h
        omega
      next hb =>
        apply ih
        have h3 : nodes.length - (i + 1) < nodes.length - i := by omega
        generalize nodes.length * nodes.length = P at h ⊢
        omega
    next hi => rfl

/-- Helper: a scan over a node set with no deletable node returns it
unchanged from any start index. -/
theorem removeBugLoop_no_bug (nodes : List Node)
    (h : ∀ n ∈ nodes, isBugNode n = false) : ∀ i, removeBugLoop nodes i = nodes := by
  have key : ∀ k i, nodes.length - i ≤ k → removeBugLoop nodes i = nodes := by
    intro k
    induction k with
    | zero =>
      intro i hk
      rw [removeBugLoop, dif_neg]
      omega
    | succ k ih =>
      intro i hk
      rw [removeBugLoop]
      split
      next hi =>
        rw [if_neg]
        · exact ih (i + 1) (by omega)
        · have hmem : nodes[i] ∈ nodes := List.getElem_mem hi
          simp [h _ hmem]
      next => rfl
  exact fun i => key nodes.length i (by omega)

end CvLoad

namespace CvLoad

/-- C3: evaluation of the Graph Repair pass at a failing input. Both nodes of
the scope node set satisfy the deletion condition (kind not internal and
parent type the generic CircuitElement default), yet the pass keeps the
second one: after deleting index 0 the source sets i to 0 and the for-loop
increment moves the scan to index 1, so the node shifted into index 0 is
never examined. The claimed postcondition that no such node remains after
the pass therefore fails, while the claimed intent is clear from the purpose
of the pass and from the restart assignment itself. -/
theorem removeBugNodes_failing_input :
    isBugNode bugNodeA = true ∧ isBugNode bugNodeB = true ∧
    removeBugNodes [bugNodeA, bugNodeB] = [bugNodeB] := by
  refine ⟨rfl, rfl, ?_⟩
  simp [removeBugNodes, removeBugLoop, isBugNode, bugNodeA, bugNodeB]

/-- C4 counterexample: the scan of removeBugNodes does not restart from the
beginning when the node-set size changes. On two consecutive deletable nodes
the restart-from-index-0 scan described by the claim deletes both, while the
source scan resumes past the new first node and keeps it. -/
theorem removeBugNodes_not_restart_from_beginning :
    removeBugNodesRestart [bugNodeA, bugNodeB] = [] ∧
    removeBugNodes [bugNodeA, bugNodeB] = [bugNodeB] ∧
    removeBugNodes [bugNodeA, bugNodeB] ≠ removeBugNodesRestart [bugNodeA, bugNodeB] := by
  refine ⟨?_, ?_, ?_⟩
  · simp [removeBugNodesRestart, removeBugLoopRestart, isBugNode, bugNodeA, bugNodeB]
  · simp [removeBugNodes, removeBugLoop, isBugNode, bugNodeA, bugNodeB]
  · simp [removeBugNodes, removeBugNodesRestart, removeBugLoop, removeBugLoopRestart,
      isBugNode, bugNodeA, bugNodeB]

/-- C4 amended: on every finite node set the Graph Repair pass terminates;
the fuel-indexed rendition of the source loop reaches the result of the pass
within an explicit bound (each deletion strictly shrinks the node set, and
each non-deleting step strictly advances the scan, so the lexicographic
measure bounds the iteration count by length * length + length); and a full
scan over a node set with no deletable node produces no change, which is
exactly when the pass stops. After a deletion, however, the scan resumes at
index 1 of the shrunken list, not at its very beginning. -/
theorem removeBugNodes_terminates (nodes : List Node) :
    removeBugLoopFuel (nodes.length * nodes.length + nodes.length + 1) nodes 0
      = some (removeBugNodes nodes) ∧
    ((∀ n ∈ nodes, isBugNode n = false) → removeBugNodes nodes = nodes) := by
  constructor
  · apply removeBugLoopFuel_adequate
    omega
  · intro h
    exact removeBugLoop_no_bug nodes h 0

/-- C4 amended, witness: the bound and the no-deletion fixed point evaluated
at a concrete singleton node set. -/
theorem removeBugNodes_terminates_witness :
    removeBugLoopFuel 3 [goodNode] 0 = some (removeBugNodes [goodNode]) ∧
    removeBugNodes [goodNode] = [goodNode] :=
  ⟨(removeBugNodes_terminates [goodNode]).1,
   (removeBugNodes_terminates [goodNode]).2 (by decide)⟩

end CvLoad

namespace CvLoad

/-! Element-level helper lemmas. -/

/-- Helper: the restoration steps after the label assignment never touch the
label slot, so the element label is exactly the descriptor label. -/
theorem buildElement_label (env : Env) (ctor : ModuleCtor) (data : ElementData)
    (allNodes : List Node) : (buildElement env ctor data allNodes).label = data.label := by
  cases h : data.subcircuitMetadata <;> simp [buildElement, h, applyValues]

/-- Helper: the element propagation delay after all restoration steps is the
JavaScript or-combination of the descriptor value and the construction
default. -/
theorem buildElement_propagationDelay (env : Env) (ctor : ModuleCtor) (data : ElementData)
    (allNodes : List Node) :
    (buildElement env ctor data allNodes).propagationDelay
      = jsOrNum data.propagationDelay (defaultElement ctor data).propagationDelay := by
  cases h : data.subcircuitMetadata <;> simp [buildElement, h, applyValues]

/-- Helper: the node-valued slots after all restoration steps are the
construction defaults rewritten by the node-override map. -/
theorem buildElement_nodeProps (env : Env) (ctor : ModuleCtor) (data : ElementData)
    (allNodes : List Node) :
    (buildElement env ctor data allNodes).nodeProps
      = applyNodeOverrides allNodes (defaultElement ctor data).nodeProps
          ((data.customData.bind (·.nodes)).getD []) := by
  cases h : data.subcircuitMetadata <;> simp [buildElement, h, applyValues]

/-- Helper: the restoration body never reads the descriptor type tag, so two
descriptors differing only in the tag restore identically. -/
theorem buildElement_objectType_irrel (env : Env) (ctor : ModuleCtor) (d : ElementData)
    (allNodes : List Node) (t₁ t₂ : String) :
    buildElement env ctor { d with objectType := t₁ } allNodes
      = buildElement env ctor { d with objectType := t₂ } allNodes := rfl

/-- C7: a descriptor carrying the legacy tag FlipFlop, respectively Ram,
loads exactly as the same descriptor carrying the current tag DflipFlop,
respectively Rom: the rectified tags coincide, so the same constructor is
resolved and every subsequent property-restoration step runs identically,
producing the same element whenever the type resolves. -/
theorem loadModule_legacy_tags (env : Env) (d : ElementData) (allNodes : List Node) :
    rectifyObjectType "FlipFlop" = rectifyObjectType "DflipFlop" ∧
    rectifyObjectType "Ram" = rectifyObjectType "Rom" ∧
    (loadModule env { d with objectType := "FlipFlop" } allNodes).toOption
      = (loadModule env { d with objectType := "DflipFlop" } allNodes).toOption ∧
    (loadModule env { d with objectType := "Ram" } allNodes).toOption
      = (loadModule env { d with objectType := "Rom" } allNodes).toOption := by
  refine ⟨by decide, by decide, ?_, ?_⟩
  · rcases hm : env.modules "DflipFlop" with _ | ctor
    · simp [loadModule, rectifyObjectType, hm, Except.toOption]
    · simp [loadModule, rectifyObjectType, hm, Except.toOption]
      exact buildElement_objectType_irrel env ctor d allNodes _ _
  · rcases hm : env.modules "Rom" with _ | ctor
    · simp [loadModule, rectifyObjectType, hm, Except.toOption]
    · simp [loadModule, rectifyObjectType, hm, Except.toOption]
      exact buildElement_objectType_irrel env ctor d allNodes _ _

end CvLoad

namespace CvLoad

/-! Concrete element-loading fixtures. -/

/-- Freshly constructed placeholder node with a pending connection whose
transfer the rewiring witness observes. -/
def placeholderX : Node :=
  { type := 0, parentObjectType := "TestGate", x := 1, y := 1, label := none, connections := [7] }

/-- Second freshly constructed placeholder node. -/
def placeholderY : Node :=
  { type := 0, parentObjectType := "TestGate", x := 2, y := 2, label := none, connections := [] }

/-- Placeholder node of the single-valued output slot. -/
def placeholderZ : Node :=
  { type := 1, parentObjectType := "TestGate", x := 3, y := 3, label := none, connections := [9] }

/-- Pre-loaded, already connected node 0 of the scope node set. -/
def preNode0 : Node :=
  { type := 0, parentObjectType := "TestGate", x := 10, y := 0, label := none, connections := [1] }

/-- Pre-loaded, already connected node 1 of the scope node set. -/
def preNode1 : Node :=
  { type := 0, parentObjectType := "TestGate", x := 10, y := 20, label := none, connections := [0] }

/-- Pre-loaded node 2 of the scope node set. -/
def preNode2 : Node :=
  { type := 1, parentObjectType := "TestGate", x := 30, y := 10, label := none, connections := [] }

/-- Construction result of the test constructor: a present default label, the
default delay 10 and two node-valued slots holding placeholders. -/
def testGateBase : Element :=
  { objectType := "TestGate", x := 0, y := 0, direction := "RIGHT"
  , label := some "DefaultLabel", labelDirection := none, propagationDelay := 10
  , values := [("bitWidth", .num 1)]
  , nodeProps := [("inp", .seq [placeholderX, placeholderY]), ("output1", .one placeholderZ)]
  , subcircuitMetadata := none }

/-- Concrete constructor registered under the tag TestGate. -/
def testCtor : ModuleCtor := fun x y _ => { testGateBase with x := x, y := y }

/-- Concrete external-collaborator environment for the witnesses. -/
def testEnv : Env :=
  { modules := fun t => if t = "TestGate" then some testCtor else none
  , fixDirection := fun s => s
  , oppositeDirection := fun s => if s = "RIGHT" then "LEFT" else "RIGHT"
  , moduleList := ["Input", "Output", "TestGate", "SubCircuit"] }

/-- Empty concrete scope. -/
def emptyScope : Scope :=
  { restrictedCircuitElementsUsed := [], allNodes := [], elements := [], subcircuits := []
  , Input := [], Output := [], wires := [], verilogMetadata := none, testbenchData := none
  , layout := none }

/-- Descriptor carrying an explicit propagation delay of zero. -/
def zeroDelayDesc : ElementData :=
  { objectType := "TestGate", x := 4, y := 5, label := some "g1", labelDirection := some "UP"
  , propagationDelay := some 0, customData := none, subcircuitMetadata := none }

/-- Descriptor carrying an explicit nonzero propagation delay. -/
def delayDesc : ElementData :=
  { zeroDelayDesc with propagationDelay := some 25 }

/-- Descriptor carrying no label at all. -/
def noLabelDesc : ElementData :=
  { objectType := "TestGate", x := 0, y := 0, label := none, labelDirection := none
  , propagationDelay := none, customData := none, subcircuitMetadata := none }

/-- Descriptor whose type tag resolves to no registered constructor. -/
def unknownDesc : ElementData :=
  { objectType := "Banana", x := 0, y := 0, label := none, labelDirection := none
  , propagationDelay := none, customData := none, subcircuitMetadata := none }

/-- C9 counterexample: the descriptor field propagationDelay is present with
the explicit value 0, yet the loaded element keeps the construction default
10, because line 150 combines the two with the JavaScript or-operator and 0
is falsy; the claim that a present explicit value is always applied fails. -/
theorem loadModule_zero_delay_cex :
    zeroDelayDesc.propagationDelay = some 0 ∧
    (defaultElement testCtor zeroDelayDesc).propagationDelay = 10 ∧
    (loadModule testEnv zeroDelayDesc []).toOption.map (·.propagationDelay) = some 10 := by
  refine ⟨rfl, rfl, by decide⟩

/-- C9 amended: loadModule sets the element propagation delay to the explicit
descriptor value whenever that value is present and nonzero; when the field
is absent, and also when it is present with the falsy value 0, the
construction default of the type is kept. -/
theorem loadModule_propagationDelay (env : Env) (d : ElementData) (allNodes : List Node)
    (ctor : ModuleCtor)
    (hm : env.modules (rectifyObjectType d.objectType) = some ctor) :
    ∃ e, loadModule env d allNodes = .ok e ∧
      (∀ v, d.propagationDelay = some v → v ≠ 0 → e.propagationDelay = v) ∧
      ((d.propagationDelay = none ∨ d.propagationDelay = some 0) →
        e.propagationDelay = (defaultElement ctor d).propagationDelay) := by
  refine ⟨buildElement env ctor d allNodes, by simp [loadModule, hm], ?_, ?_⟩
  · intro v hv hnz
    rw [buildElement_propagationDelay, hv]
    simp [jsOrNum, hnz]
  · rintro (hv | hv) <;> rw [buildElement_propagationDelay, hv] <;> simp [jsOrNum]

/-- C9 amended, witness at a concrete descriptor with delay 25. -/
theorem loadModule_propagationDelay_witness :
    testEnv.modules (rectifyObjectType delayDesc.objectType) = some testCtor ∧
    (∃ e, loadModule testEnv delayDesc [] = .ok e ∧
      (∀ v, delayDesc.propagationDelay = some v → v ≠ 0 → e.propagationDelay = v) ∧
      ((delayDesc.propagationDelay = none ∨ delayDesc.propagationDelay = some 0) →
        e.propagationDelay = (defaultElement testCtor delayDesc).propagationDelay)) :=
  ⟨rfl, loadModule_propagationDelay testEnv delayDesc [] testCtor rfl⟩

/-- C10 counterexample: the construction default label of the type is the
present value DefaultLabel and the descriptor carries no label, yet after
loadModule the element label is the absent value rather than the unchanged
construction default, because line 145 assigns data.label unconditionally. -/
theorem loadModule_label_cex :
    (defaultElement testCtor noLabelDesc).label = some "DefaultLabel" ∧
    noLabelDesc.label = none ∧
    (loadModule testEnv noLabelDesc []).toOption.map (·.label) = some none := by
  refine ⟨rfl, rfl, by decide⟩

/-- C10 amended: loadModule assigns the descriptor label to the element
unconditionally; when the descriptor carries a label the element receives
exactly it, and when the descriptor carries none the element label becomes
the absent value, overwriting any construction-time label. -/
theorem loadModule_label (env : Env) (d : ElementData) (allNodes : List Node)
    (ctor : ModuleCtor)
    (hm : env.modules (rectifyObjectType d.objectType) = some ctor) :
    ∃ e, loadModule env d allNodes = .ok e ∧ e.label = d.label :=
  ⟨buildElement env ctor d allNodes, by simp [loadModule, hm],
   buildElement_label env ctor d allNodes⟩

/-- C10 amended, witness at a concrete descriptor carrying the label g1. -/
theorem loadModule_label_witness :
    testEnv.modules (rectifyObjectType zeroDelayDesc.objectType) = some testCtor ∧
    (∃ e, loadModule testEnv zeroDelayDesc [] = .ok e ∧ e.label = zeroDelayDesc.label) :=
  ⟨rfl, loadModule_label testEnv zeroDelayDesc [] testCtor rfl⟩

/-- Helper: with an unresolved rectified type tag, loadModuleInto leaves any
scope unchanged. -/
theorem loadModuleInto_unresolved (env : Env) (d : ElementData)
    (hm : env.modules (rectifyObjectType d.objectType) = none) (s : Scope) :
    loadModuleInto env d s = s := by
  simp [loadModuleInto, loadModule, hm]

/-- C6: when the rectified type tag has no registered constructor, loadModule
produces only the logged diagnostic, no element is constructed and the scope
is left untouched, and the surrounding per-scope element loop loads exactly
the remaining descriptors: dropping the failing descriptor from the sequence
gives the same final scope, so the failure is per-element and non-fatal. -/
theorem loadModule_unresolved_skips (env : Env) (d : ElementData) (s : Scope)
    (pre post : List ElementData)
    (hm : env.modules (rectifyObjectType d.objectType) = none) :
    loadModule env d s.allNodes = .error ("Module type " ++ d.objectType ++ " not found") ∧
    loadModuleInto env d s = s ∧
    loadModuleList env (pre ++ d :: post) s = loadModuleList env (pre ++ post) s := by
  refine ⟨by simp [loadModule, hm], loadModuleInto_unresolved env d hm s, ?_⟩
  simp only [loadModuleList, List.foldl_append, List.foldl_cons]
  rw [loadModuleInto_unresolved env d hm]

/-- C6 witness at a concrete unresolved descriptor between two resolved
ones. -/
theorem loadModule_unresolved_skips_witness :
    testEnv.modules (rectifyObjectType unknownDesc.objectType) = none ∧
    (loadModule testEnv unknownDesc emptyScope.allNodes
        = .error ("Module type " ++ unknownDesc.objectType ++ " not found") ∧
      loadModuleInto testEnv unknownDesc emptyScope = emptyScope ∧
      loadModuleList testEnv ([delayDesc] ++ unknownDesc :: [noLabelDesc]) emptyScope
        = loadModuleList testEnv ([delayDesc] ++ [noLabelDesc]) emptyScope) :=
  ⟨rfl, loadModule_unresolved_skips testEnv unknownDesc emptyScope [delayDesc] [noLabelDesc] rfl⟩

end CvLoad


namespace CvLoad

/-! Lookup and rewiring lemmas for the node-override loop. -/

/-- Helper: one step of the override fold. -/
theorem applyNodeOverrides_cons (an : List Node) (ps : List (String × NodeProp))
    (o : String × NodeOverride) (ovs : List (String × NodeOverride)) :
    applyNodeOverrides an ps (o :: ovs)
      = applyNodeOverrides an (updateProp an ps o.1 o.2) ovs := rfl

/-- Helper: one step of the key update. -/
theorem updateProp_cons (an : List Node) (k₂ : String) (v : NodeProp)
    (ps : List (String × NodeProp)) (k : String) (ov : NodeOverride) :
    updateProp an ((k₂, v) :: ps) k ov
      = (if k₂ = k then (k₂, applyOverride an v ov) else (k₂, v)) :: updateProp an ps k ov := rfl

/-- Helper: updating at a key rewrites exactly the binding of that key seen
by lookup. -/
theorem alookup_updateProp_self (an : List Node) (ps : List (String × NodeProp))
    (k : String) (ov : NodeOverride) :
    alookup k (updateProp an ps k ov)
      = (alookup k ps).map (fun p => applyOverride an p ov) := by
  induction ps with
  | nil => rfl
  | cons p ps ih =>
    obtain ⟨k₂, v⟩ := p
    rw [updateProp_cons]
    by_cases h : k₂ = k
    · rw [if_pos h]
      simp only [alookup]
      rw [if_pos h, if_pos h]
      rfl
    · rw [if_neg h]
      simp only [alookup]
      rw [if_neg h, if_neg h]
      exact ih

/-- Helper: updating at one key leaves lookup at any other key unchanged. -/
theorem alookup_updateProp_ne (an : List Node) (ps : List (String × NodeProp))
    {k₁ k : String} (h : k₁ ≠ k) (ov : NodeOverride) :
    alookup k (updateProp an ps k₁ ov) = alookup k ps := by
  induction ps with
  | nil => rfl
  | cons p ps ih =>
    obtain ⟨k₂, v⟩ := p
    rw [updateProp_cons]
    by_cases h2 : k₂ = k₁
    · have h3 : k₂ ≠ k := fun he => h (h2 ▸ he)
      rw [if_pos h2]
      simp only [alookup]
      rw [if_neg h3, if_neg h3]
      exact ih
    · rw [if_neg h2]
      simp only [alookup]
      by_cases h3 : k₂ = k
      · rw [if_pos h3, if_pos h3]
      · rw [if_neg h3, if_neg h3]
        exact ih

/-- Helper: the override fold does not touch keys outside the override map. -/
theorem alookup_applyNodeOverrides_notmem (an : List Node)
    (ovs : List (String × NodeOverride)) :
    ∀ (ps : List (String × NodeProp)) (k : String), k ∉ ovs.map Prod.fst →
      alookup k (applyNodeOverrides an ps ovs) = alookup k ps := by
  induction ovs with
  | nil => intro ps k _; rfl
  | cons o ovs ih =>
    intro ps k h
    simp only [List.map_cons, List.mem_cons, not_or] at h
    rw [applyNodeOverrides_cons, ih _ _ h.2]
    exact alookup_updateProp_ne an ps (fun he => h.1 he.symm) o.2

/-- Helper: with pairwise distinct override keys, the override fold rewrites
the slot of each override entry by exactly its own override. -/
theorem alookup_applyNodeOverrides_mem (an : List Node)
    (ovs : List (String × NodeOverride)) :
    ∀ (ps : List (String × NodeProp)) (k : String) (ov : NodeOverride),
      (ovs.map Prod.fst).Nodup → (k, ov) ∈ ovs →
      alookup k (applyNodeOverrides an ps ovs)
        = (alookup k ps).map (fun p => applyOverride an p ov) := by
  induction ovs with
  | nil => intro ps k ov _ hmem; cases hmem
  | cons o ovs ih =>
    intro ps k ov hnd hmem
    simp only [List.map_cons, List.nodup_cons] at hnd
    rw [applyNodeOverrides_cons]
    rcases List.mem_cons.mp hmem with heq | hmem2
    · have hk : k ∉ ovs.map Prod.fst := by
        rw [← heq] at hnd
        exact hnd.1
      rw [alookup_applyNodeOverrides_notmem an ovs _ _ hk, ← heq]
      exact alookup_updateProp_self an ps k ov
    · have hk : k ∈ ovs.map Prod.fst := by
        have := List.mem_map_of_mem Prod.fst hmem2
        simpa using this
      have hne : o.1 ≠ k := fun he => hnd.1 (he ▸ hk)
      rw [ih _ _ _ hnd.2 hmem2, alookup_updateProp_ne an ps hne o.2]

/-- Helper: an empty override sequence leaves the slot array unchanged. -/
theorem rewireMany_nil_right (an : List Node) (pls : List Node) :
    rewireMany an pls [] = pls := by
  cases pls <;> rfl

/-- Helper: the array branch preserves the length of the slot array. -/
theorem rewireMany_length (an : List Node) (pls : List Node) : ∀ (idxs : List Nat),
    (rewireMany an pls idxs).length = pls.length := by
  induction pls with
  | nil => intro idxs; cases idxs <;> rfl
  | cons pl pls ih =>
    intro idxs
    cases idxs with
    | nil => rfl
    | cons idx idxs => simp [rewireMany, ih]

/-- Helper: positions past the override sequence keep their nodes. -/
theorem rewireMany_getElem_ge (an : List Node) (idxs : List Nat) :
    ∀ (pls : List Node) (j : Nat), idxs.length ≤ j →
      (rewireMany an pls idxs)[j]? = pls[j]? := by
  induction idxs with
  | nil => intro pls j _; rw [rewireMany_nil_right]
  | cons i idxs ih =>
    intro pls j hj
    cases pls with
    | nil => rfl
    | cons pl pls =>
      obtain ⟨j₂, rfl⟩ : ∃ j₂, j = j₂ + 1 := ⟨j - 1, by simp at hj; omega⟩
      simp only [rewireMany, List.getElem?_cons_succ]
      exact ih pls j₂ (by simp at hj; omega)

/-- Helper: each position covered by the override sequence is rewired with
its own index. -/
theorem rewireMany_getElem_lt (an : List Node) (idxs : List Nat) :
    ∀ (pls : List Node) (j idx : Nat) (pl : Node),
      idxs[j]? = some idx → pls[j]? = some pl →
      (rewireMany an pls idxs)[j]? = some (replace an pl idx) := by
  induction idxs with
  | nil => intro pls j idx pl h1 _; simp at h1
  | cons i idxs ih =>
    intro pls j idx pl h1 h2
    cases pls with
    | nil => simp at h2
    | cons pl2 pls =>
      cases j with
      | zero =>
        simp only [List.getElem?_cons_zero, Option.some.injEq] at h1 h2
        simp [rewireMany, h1, h2]
      | succ j =>
        simp only [List.getElem?_cons_succ] at h1 h2
        simp only [rewireMany, List.getElem?_cons_succ]
        exact ih pls j idx pl h1 h2

end CvLoad

namespace CvLoad

/-- C1: for every element descriptor carrying a node-override map, loadModule
rewires each named node-valued slot of the freshly constructed element onto
the pre-loaded nodes of the scope node set. A single index makes the slot
reference exactly the pre-loaded node at that index, carrying that node's
existing connections with the placeholder's connections transferred onto it;
a sequence of indices rewires each position i of the slot array independently
with the i-th index, in order, and leaves positions past the end of the
sequence holding their freshly constructed nodes. -/
theorem loadModule_rewires_node_overrides (env : Env) (d : ElementData) (allNodes : List Node)
    (ctor : ModuleCtor) (cd : CustomData) (ovs : List (String × NodeOverride))
    (name : String) (ov : NodeOverride)
    (hm : env.modules (rectifyObjectType d.objectType) = some ctor)
    (hcd : d.customData = some cd)
    (hovs : cd.nodes = some ovs)
    (hnd : (ovs.map Prod.fst).Nodup)
    (hmem : (name, ov) ∈ ovs) :
    ∃ e, loadModule env d allNodes = .ok e ∧
      (∀ (idx : Nat) (pl : Node), ov = .one idx → (hlt : idx < allNodes.length) →
        alookup name (defaultElement ctor d).nodeProps = some (.one pl) →
        alookup name e.nodeProps
          = some (.one { allNodes[idx] with
              connections := allNodes[idx].connections ++ pl.connections })) ∧
      (∀ (idxs : List Nat) (pls : List Node), ov = .seq idxs → idxs.length ≤ pls.length →
        alookup name (defaultElement ctor d).nodeProps = some (.seq pls) →
        ∃ qs : List Node, alookup name e.nodeProps = some (.seq qs) ∧ qs.length = pls.length ∧
          (∀ (j idx : Nat), idxs[j]? = some idx → (hlt : idx < allNodes.length) →
            ∃ pl : Node, pls[j]? = some pl ∧
              qs[j]? = some { allNodes[idx] with
                connections := allNodes[idx].connections ++ pl.connections }) ∧
          (∀ j : Nat, idxs.length ≤ j → qs[j]? = pls[j]?)) := by
  have hnp : (buildElement env ctor d allNodes).nodeProps
      = applyNodeOverrides allNodes (defaultElement ctor d).nodeProps ovs := by
    rw [buildElement_nodeProps, hcd]
    simp [hovs]
  have hlook := alookup_applyNodeOverrides_mem allNodes ovs
    (defaultElement ctor d).nodeProps name ov hnd hmem
  refine ⟨buildElement env ctor d allNodes, by simp [loadModule, hm], ?_, ?_⟩
  · intro idx pl hov hlt hslot
    rw [hnp, hlook, hslot, hov]
    simp [applyOverride, replace, List.getElem?_eq_getElem hlt]
  · intro idxs pls hov hlen hslot
    refine ⟨rewireMany allNodes pls idxs, ?_, rewireMany_length allNodes pls idxs, ?_, ?_⟩
    · rw [hnp, hlook, hslot, hov]
      simp [applyOverride]
    · intro j idx hj hlt
      have hjlt : j < idxs.length := by
        by_contra hc
        push_neg at hc
        rw [List.getElem?_eq_none hc] at hj
        cases hj
      have hjpls : j < pls.length := lt_of_lt_of_le hjlt hlen
      refine ⟨pls[j], List.getElem?_eq_getElem hjpls, ?_⟩
      rw [rewireMany_getElem_lt allNodes idxs pls j idx pls[j] hj
        (List.getElem?_eq_getElem hjpls)]
      simp [replace, List.getElem?_eq_getElem hlt]
    · intro j hjge
      exact rewireMany_getElem_ge allNodes idxs pls j hjge

/-- Custom payload of the rewiring witness: the two-position input slot is
rewired onto pre-loaded nodes 0 and 1, the output slot onto node 2. -/
def rewireCD : CustomData :=
  { constructorParamaters := none, values := none
  , nodes := some [("inp", .seq [0, 1]), ("output1", .one 2)] }

/-- Override entries of the rewiring witness. -/
def rewireOvs : List (String × NodeOverride) :=
  [("inp", .seq [0, 1]), ("output1", .one 2)]

/-- Descriptor of the rewiring witness. -/
def rewireDesc : ElementData :=
  { objectType := "TestGate", x := 6, y := 7, label := some "and1", labelDirection := none
  , propagationDelay := none, customData := some rewireCD, subcircuitMetadata := none }

/-- Pre-loaded node set of the rewiring witness. -/
def preNodes : List Node := [preNode0, preNode1, preNode2]

/-- C1 witness: the rewiring theorem applied to the concrete two-input
element whose input slots are rewired onto pre-loaded nodes 0 and 1. -/
theorem loadModule_rewires_node_overrides_witness :
    (testEnv.modules (rectifyObjectType rewireDesc.objectType) = some testCtor ∧
     rewireDesc.customData = some rewireCD ∧
     rewireCD.nodes = some rewireOvs ∧
     (rewireOvs.map Prod.fst).Nodup ∧
     ("inp", NodeOverride.seq [0, 1]) ∈ rewireOvs) ∧
    (∃ e, loadModule testEnv rewireDesc preNodes = .ok e ∧
      (∀ (idx : Nat) (pl : Node), NodeOverride.seq [0, 1] = .one idx → (hlt : idx < preNodes.length) →
        alookup "inp" (defaultElement testCtor rewireDesc).nodeProps = some (.one pl) →
        alookup "inp" e.nodeProps
          = some (.one { preNodes[idx] with
              connections := preNodes[idx].connections ++ pl.connections })) ∧
      (∀ (idxs : List Nat) (pls : List Node), NodeOverride.seq [0, 1] = .seq idxs → idxs.length ≤ pls.length →
        alookup "inp" (defaultElement testCtor rewireDesc).nodeProps = some (.seq pls) →
        ∃ qs : List Node, alookup "inp" e.nodeProps = some (.seq qs) ∧ qs.length = pls.length ∧
          (∀ (j idx : Nat), idxs[j]? = some idx → (hlt : idx < preNodes.length) →
            ∃ pl : Node, pls[j]? = some pl ∧
              qs[j]? = some { preNodes[idx] with
                connections := preNodes[idx].connections ++ pl.connections }) ∧
          (∀ j : Nat, idxs.length ≤ j → qs[j]? = pls[j]?))) :=
  ⟨⟨rfl, rfl, rfl, by decide, by decide⟩,
   loadModule_rewires_node_overrides testEnv rewireDesc preNodes testCtor rewireCD rewireOvs
     "inp" (.seq [0, 1]) rfl rfl rfl (by decide) (by decide)⟩

end CvLoad

namespace CvLoad

/-! Layout-resolution lemmas. -/

/-- Helper: port-property assignment preserves the port count. -/
theorem assignPortProps_length (mk : Nat → LayoutProps) :
    ∀ (ps : List Port) (i : Nat), (assignPortProps mk i ps).length = ps.length := by
  intro ps
  induction ps with
  | nil => intro i; rfl
  | cons p ps ih => intro i; simp [assignPortProps, ih]

/-- Helper: the j-th assigned port holds exactly the properties generated for
index i + j. -/
theorem assignPortProps_getElem (mk : Nat → LayoutProps) :
    ∀ (ps : List Port) (i j : Nat), j < ps.length →
      (assignPortProps mk i ps)[j]? = some { layoutProperties := some (mk (i + j)) } := by
  intro ps
  induction ps with
  | nil => intro i j h; simp at h
  | cons p ps ih =>
    intro i j h
    cases j with
    | zero => simp [assignPortProps]
    | succ j =>
      simp only [assignPortProps, List.getElem?_cons_succ]
      rw [ih (i + 1) j (by simpa using h)]
      have harith : i + 1 + j = i + (j + 1) := by omega
      rw [harith]

/-- Helper: the assigned layout ids of consecutive ports are the generated
ids in order. -/
theorem assignPortProps_ids (mk : Nat → LayoutProps) :
    ∀ (ps : List Port) (i : Nat),
      (assignPortProps mk i ps).filterMap (fun p => p.layoutProperties.map (·.id))
        = (List.range ps.length).map (fun j => (mk (i + j)).id) := by
  intro ps
  induction ps with
  | nil => intro i; rfl
  | cons p ps ih =>
    intro i
    simp only [assignPortProps, List.filterMap_cons, Option.map_some, List.length_cons]
    rw [List.range_succ_eq_map, List.map_cons, List.map_map, ih (i + 1)]
    refine congrArg₂ _ (by simp) (List.map_congr_left ?_)
    intro j hj
    show (mk (i + 1 + j)).id = (mk (i + (j + 1))).id
    congr 2
    omega

/-! State-preservation lemmas for the scope pipeline. -/

/-- Helper: recording an element never touches the testbench slot. -/
theorem loadModuleInto_testbenchData (env : Env) (d : ElementData) (s : Scope) :
    (loadModuleInto env d s).testbenchData = s.testbenchData := by
  unfold loadModuleInto
  cases loadModule env d s.allNodes with
  | error e => rfl
  | ok e =>
    by_cases h1 : e.objectType = "Input"
    · simp [h1]
    · by_cases h2 : e.objectType = "Output" <;> simp [h1, h2]

/-- Helper: one step of the element-list fold. -/
theorem loadModuleList_cons (env : Env) (d : ElementData) (ds : List ElementData) (s : Scope) :
    loadModuleList env (d :: ds) s = loadModuleList env ds (loadModuleInto env d s) := rfl

/-- Helper: loading an element list never touches the testbench slot. -/
theorem loadModuleList_testbenchData (env : Env) (ds : List ElementData) :
    ∀ s : Scope, (loadModuleList env ds s).testbenchData = s.testbenchData := by
  induction ds with
  | nil => intro s; rfl
  | cons d ds ih =>
    intro s
    rw [loadModuleList_cons, ih, loadModuleInto_testbenchData]

/-- Helper: recording subcircuit descriptors never touches the testbench
slot. -/
theorem subcircuitFold_testbenchData :
    ∀ (ds : List ElementData) (s : Scope),
      (ds.foldl (fun a d => { a with subcircuits := a.subcircuits ++ [d] }) s).testbenchData
        = s.testbenchData := by
  intro ds
  induction ds with
  | nil => intro s; rfl
  | cons d ds ih => intro s; rw [List.foldl_cons, ih]

/-- Helper: the whole module-loading loop never touches the testbench
slot. -/
theorem loadScopeModules_testbenchData (env : Env) (data : ScopeData) (s : Scope) :
    (loadScopeModules env data s).testbenchData = s.testbenchData := by
  suffices h : ∀ (tags : List String) (s : Scope),
      (tags.foldl
        (fun acc tag =>
          match alookup tag data.moduleData with
          | none => acc
          | some ds =>
            if tag = "SubCircuit" then
              ds.foldl (fun a d => { a with subcircuits := a.subcircuits ++ [d] }) acc
            else
              loadModuleList env ds acc)
        s).testbenchData = s.testbenchData by
    exact h env.moduleList s
  intro tags
  induction tags with
  | nil => intro s; rfl
  | cons t tags ih =>
    intro s
    rw [List.foldl_cons, ih]
    cases halo : alookup t data.moduleData with
    | none => simp [halo]
    | some ds =>
      by_cases hsub : t = "SubCircuit" <;>
        simp [halo, hsub, subcircuitFold_testbenchData, loadModuleList_testbenchData]

/-- Helper: layout resolution never touches the testbench slot. -/
theorem applyLayout_testbenchData (p : Option Layout) (s : Scope) (n : Nat) :
    ((applyLayout p s n).1).testbenchData = s.testbenchData := by
  cases p <;> simp [applyLayout]

/-- Helper: the titleEnabled default never touches the testbench slot. -/
theorem ensureTitleEnabled_testbenchData (s : Scope) :
    (ensureTitleEnabled s).testbenchData = s.testbenchData := by
  unfold ensureTitleEnabled
  cases h : s.layout with
  | none => rfl
  | some l => cases h2 : l.titleEnabled <;> simp [h2]

end CvLoad

namespace CvLoad

/-- Boundary port holding the given layout placement. -/
def portWithProps (x y : Int) (pid : Nat) : Port :=
  { layoutProperties := some { x := x, y := y, id := pid } }

/-- Synthesized layout height for the given port counts. -/
def synthHeight (inC outC : Nat) : Int :=
  (Nat.max inC outC : Int) * 20 + 20

/-- Synthesized y coordinate of the i-th port on a side with count ports. -/
def synthPortY (inC outC count i : Nat) : Int :=
  synthHeight inC outC / 2 - (count : Int) * 10 + 20 * (i : Int) + 10

/-- Helper: fields of the synthesized layout after the titleEnabled
default. -/
theorem synthLayout_fields (s : Scope) (n : Nat) :
    (ensureTitleEnabled (applyLayout none s n).1).layout
      = some { width := 100, height := synthHeight s.Input.length s.Output.length
             , title_x := 50, title_y := 13, titleEnabled := some true } := by
  simp [applyLayout, ensureTitleEnabled, synthHeight]

/-- Helper: the synthesized-layout branch preserves the port counts. -/
theorem synthLayout_lengths (s : Scope) (n : Nat) :
    (ensureTitleEnabled (applyLayout none s n).1).Input.length = s.Input.length ∧
    (ensureTitleEnabled (applyLayout none s n).1).Output.length = s.Output.length := by
  constructor <;> simp [applyLayout, ensureTitleEnabled, assignPortProps_length]

/-- Helper: the i-th input port of the synthesized layout. -/
theorem synthLayout_Input_getElem (s : Scope) (n : Nat) (i : Nat) (h : i < s.Input.length) :
    (ensureTitleEnabled (applyLayout none s n).1).Input[i]?
      = some (portWithProps 0 (synthPortY s.Input.length s.Output.length s.Input.length i) (n + i)) := by
  simp only [applyLayout, ensureTitleEnabled]
  rw [assignPortProps_getElem _ s.Input 0 i h]
  simp [portWithProps, synthPortY, synthHeight]

/-- Helper: the i-th output port of the synthesized layout. -/
theorem synthLayout_Output_getElem (s : Scope) (n : Nat) (i : Nat) (h : i < s.Output.length) :
    (ensureTitleEnabled (applyLayout none s n).1).Output[i]?
      = some (portWithProps 100 (synthPortY s.Input.length s.Output.length s.Output.length i)
          (n + s.Input.length + i)) := by
  simp only [applyLayout, ensureTitleEnabled]
  rw [assignPortProps_getElem _ s.Output 0 i h]
  simp [portWithProps, synthPortY, synthHeight]

/-- Helper: the synthesized layout hands out pairwise distinct port ids. -/
theorem synthLayout_ids_nodup (s : Scope) (n : Nat) :
    (((ensureTitleEnabled (applyLayout none s n).1).Input
        ++ (ensureTitleEnabled (applyLayout none s n).1).Output).filterMap
        (fun p => p.layoutProperties.map (·.id))).Nodup := by
  simp only [applyLayout, ensureTitleEnabled, List.filterMap_append]
  rw [assignPortProps_ids, assignPortProps_ids]
  apply List.Nodup.append
  · exact (List.nodup_range _).map (fun a b h => by simpa using h)
  · exact (List.nodup_range _).map (fun a b h => by simpa using h)
  · intro x hx hy
    simp only [List.mem_map, List.mem_range] at hx hy
    obtain ⟨a, ha, rfl⟩ := hx
    obtain ⟨b, hb, heq⟩ := hy
    simp at heq
    omega

end CvLoad

namespace CvLoad

/-- Helper: with no persisted layout, the loadScope result is the
synthesized-layout branch applied to the scope state reached before layout
resolution. -/
theorem loadScope_layout_step (env : Env) (st : LoadState) (scope : Scope) (data : ScopeData)
    (hlayout : data.layout = none) :
    ∃ (s₈ : Scope) (n : Nat),
      (loadScope env st scope data).1 = ensureTitleEnabled (applyLayout none s₈ n).1 :=
  ⟨_, _, by simp only [loadScope, hlayout]; rfl⟩

/-- C2: for every scope descriptor with no persisted layout, loadScope
synthesizes the deterministic layout: with inC and outC the final boundary
port counts of the scope, the layout has width 100, height
max(inC, outC) * 20 + 20, title position (50, 13) and (by the
backward-compatibility default) an enabled title; the i-th input port sits at
x 0, y height / 2 - inC * 10 + 20 * i + 10; the i-th output port sits at
x 100 (the layout width), y height / 2 - outC * 10 + 20 * i + 10; and every
port receives a freshly generated id, all of them pairwise distinct. -/
theorem loadScope_synthesized_layout (env : Env) (st : LoadState) (scope : Scope)
    (data : ScopeData) (hlayout : data.layout = none) :
    ∃ inC outC : Nat,
      (loadScope env st scope data).1.Input.length = inC ∧
      (loadScope env st scope data).1.Output.length = outC ∧
      (loadScope env st scope data).1.layout
        = some { width := 100, height := synthHeight inC outC
               , title_x := 50, title_y := 13, titleEnabled := some true } ∧
      (∀ i : Nat, i < inC → ∃ pid : Nat,
        (loadScope env st scope data).1.Input[i]?
          = some (portWithProps 0 (synthPortY inC outC inC i) pid)) ∧
      (∀ i : Nat, i < outC → ∃ pid : Nat,
        (loadScope env st scope data).1.Output[i]?
          = some (portWithProps 100 (synthPortY inC outC outC i) pid)) ∧
      (((loadScope env st scope data).1.Input
          ++ (loadScope env st scope data).1.Output).filterMap
          (fun p => p.layoutProperties.map (·.id))).Nodup := by
  obtain ⟨s₈, n, hs⟩ := loadScope_layout_step env st scope data hlayout
  rw [hs]
  refine ⟨s₈.Input.length, s₈.Output.length, (synthLayout_lengths s₈ n).1,
    (synthLayout_lengths s₈ n).2, synthLayout_fields s₈ n, ?_, ?_,
    synthLayout_ids_nodup s₈ n⟩
  · intro i hi
    exact ⟨n + i, synthLayout_Input_getElem s₈ n i hi⟩
  · intro i hi
    exact ⟨n + s₈.Input.length + i, synthLayout_Output_getElem s₈ n i hi⟩

/-- Concrete scope with two boundary input ports and one output port. -/
def ioScope : Scope :=
  { emptyScope with Input := [Port.mk none, Port.mk none], Output := [Port.mk none] }

/-- Concrete scope descriptor with no persisted layout, no nodes, no
elements and no testbench data. -/
def plainScopeData : ScopeData :=
  { name := some "main", id := "1", restrictedCircuitElementsUsed := []
  , allNodes := [], moduleData := [], verilogMetadata := none
  , testbenchData := none, layout := none }

/-- Concrete loader state with no focussed scope and id counter 100. -/
def initState : LoadState := { globalScope := none, nextId := 100 }

/-- C2 witness: the synthesized layout at two inputs and one output, where
the height is max(2, 1) * 20 + 20 = 60, the inputs sit at y 20 and y 40 and
the output sits at y 30. -/
theorem loadScope_synthesized_layout_witness :
    plainScopeData.layout = none ∧
    synthHeight 2 1 = 60 ∧
    synthPortY 2 1 2 0 = 20 ∧ synthPortY 2 1 2 1 = 40 ∧ synthPortY 2 1 1 0 = 30 ∧
    (∃ inC outC : Nat,
      (loadScope testEnv initState ioScope plainScopeData).1.Input.length = inC ∧
      (loadScope testEnv initState ioScope plainScopeData).1.Output.length = outC ∧
      (loadScope testEnv initState ioScope plainScopeData).1.layout
        = some { width := 100, height := synthHeight inC outC
               , title_x := 50, title_y := 13, titleEnabled := some true } ∧
      (∀ i : Nat, i < inC → ∃ pid : Nat,
        (loadScope testEnv initState ioScope plainScopeData).1.Input[i]?
          = some (portWithProps 0 (synthPortY inC outC inC i) pid)) ∧
      (∀ i : Nat, i < outC → ∃ pid : Nat,
        (loadScope testEnv initState ioScope plainScopeData).1.Output[i]?
          = some (portWithProps 100 (synthPortY inC outC outC i) pid)) ∧
      (((loadScope testEnv initState ioScope plainScopeData).1.Input
          ++ (loadScope testEnv initState ioScope plainScopeData).1.Output).filterMap
          (fun p => p.layoutProperties.map (·.id))).Nodup) :=
  ⟨rfl, by decide, by decide, by decide, by decide,
   loadScope_synthesized_layout testEnv initState ioScope plainScopeData rfl⟩

end CvLoad

namespace CvLoad

/-- Testbench state built from a serialized blob, as on lines 249 to 253. -/
def mkTestbench (tb : TestbenchBlob) : TestbenchData :=
  { testData := tb.testData, currentGroup := tb.currentGroup, currentCase := tb.currentCase }

/-- C5: whenever the scope descriptor carries testbench data, loadScope
builds the testbench state from the test-data blob and the current group and
case references and assigns it to the currently globally focussed scope, not
to the scope argument, whose testbench slot is left untouched; and when no
scope is globally focussed, no testbench state is constructed at all. -/
theorem loadScope_testbench_global (env : Env) (st : LoadState) (scope : Scope)
    (data : ScopeData) (tb : TestbenchBlob)
    (htb : data.testbenchData = some tb) :
    (∀ g : Scope, st.globalScope = some g →
      (loadScope env st scope data).2.globalScope
        = some { g with testbenchData := some (mkTestbench tb) }) ∧
    (st.globalScope = none → (loadScope env st scope data).2.globalScope = none) ∧
    (loadScope env st scope data).1.testbenchData = scope.testbenchData := by
  refine ⟨?_, ?_, ?_⟩
  · intro g hg
    simp only [loadScope, htb, hg, mkTestbench]
  · intro hg
    simp only [loadScope, htb, hg]
  · cases hv : data.verilogMetadata <;>
      simp [loadScope, hv, ensureTitleEnabled_testbenchData, applyLayout_testbenchData,
        loadScopeModules_testbenchData]

/-- Concrete testbench blob. -/
def tbBlob : TestbenchBlob :=
  { testData := .str "td", currentGroup := .num 1, currentCase := .num 2 }

/-- Concrete scope descriptor carrying testbench data. -/
def tbScopeData : ScopeData :=
  { plainScopeData with testbenchData := some tbBlob }

/-- Concrete loader state focussing the empty scope. -/
def focusState : LoadState := { globalScope := some emptyScope, nextId := 0 }

/-- C5 witness: the testbench restoration applied with the empty scope
globally focussed and a distinct scope argument. -/
theorem loadScope_testbench_global_witness :
    tbScopeData.testbenchData = some tbBlob ∧
    ((∀ g : Scope, focusState.globalScope = some g →
      (loadScope testEnv focusState ioScope tbScopeData).2.globalScope
        = some { g with testbenchData := some (mkTestbench tbBlob) }) ∧
    (focusState.globalScope = none →
      (loadScope testEnv focusState ioScope tbScopeData).2.globalScope = none) ∧
    (loadScope testEnv focusState ioScope tbScopeData).1.testbenchData
      = ioScope.testbenchData) :=
  ⟨rfl, loadScope_testbench_global testEnv focusState ioScope tbScopeData tbBlob rfl⟩

end CvLoad

namespace CvLoad

/-- C8: with a persisted tab-ordering list, the reorder step permutes the
circuit list without creating or dropping entries, orders it ascending by the
position of each circuit id in the persisted list (ids absent from the list
all get position -1), and is stable: for every key value, in particular for
the entries absent from the list and for ties, the circuits with that key
keep exactly their original relative order. -/
theorem load_orderedTabs_stable (tabs : List String) (cs : List Circuit) :
    (applyOrderedTabs (some tabs) cs).Perm cs ∧
    (applyOrderedTabs (some tabs) cs).Pairwise (fun a b => tabKey tabs a ≤ tabKey tabs b) ∧
    (∀ v : Int, (applyOrderedTabs (some tabs) cs).filter (fun c => tabKey tabs c == v)
        = cs.filter (fun c => tabKey tabs c == v)) := by
  have htrans : ∀ (a b c : Circuit),
      (decide (tabKey tabs a ≤ tabKey tabs b)) = true →
      (decide (tabKey tabs b ≤ tabKey tabs c)) = true →
      (decide (tabKey tabs a ≤ tabKey tabs c)) = true := by
    intro a b c h1 h2
    simp only [decide_eq_true_eq] at h1 h2 ⊢
    omega
  have htotal : ∀ (a b : Circuit),
      ((decide (tabKey tabs a ≤ tabKey tabs b)) || (decide (tabKey tabs b ≤ tabKey tabs a)))
        = true := by
    intro a b
    simp only [Bool.or_eq_true, decide_eq_true_eq]
    omega
  refine ⟨?_, ?_, ?_⟩
  · exact List.mergeSort_perm cs _
  · have h := List.sorted_mergeSort htrans htotal cs
    exact h.imp (fun hab => by simpa using hab)
  · intro v
    show ((cs.mergeSort _).filter _) = _
    have hsub : List.Sublist (cs.filter (fun c => tabKey tabs c == v)) cs :=
      List.filter_sublist cs
    have hpw : (cs.filter (fun c => tabKey tabs c == v)).Pairwise
        (fun a b => (decide (tabKey tabs a ≤ tabKey tabs b)) = true) := by
      apply List.pairwise_of_forall_mem_list
      intro a ha b hb
      have ha2 := (List.mem_filter.mp ha).2
      have hb2 := (List.mem_filter.mp hb).2
      simp only [beq_iff_eq] at ha2 hb2
      simp only [decide_eq_true_eq, ha2, hb2, le_refl]
    have hstable := List.sublist_mergeSort htrans htotal hpw hsub
    have h2 := hstable.filter (fun c => tabKey tabs c == v)
    simp only [List.filter_filter, Bool.and_self] at h2
    have hperm : ((cs.mergeSort (fun a b => tabKey tabs a ≤ tabKey tabs b)).filter
          (fun c => tabKey tabs c == v)).Perm
        (cs.filter (fun c => tabKey tabs c == v)) :=
      (List.mergeSort_perm cs _).filter _
    exact (h2.eq_of_length hperm.length_eq.symm).symm

end CvLoad
